import Mathlib

/-!
Verification development for the Images-to-R2 plugin.

Documents, paths and URLs are modelled as `List Char`.  JavaScript string
operations used by the source (`split`, `lastIndexOf`, `Map` lookup,
`matchAll` of the two image regexes, `encodeURIComponent`) are embedded as
executable Lean functions with the same semantics.  Host collaborators
(vault file resolution, WHATWG URL parsing, `decodeURIComponent`, the HTTP
transport) are passed in as explicit parameters, mirroring the interface
boundary of the source.
-/

namespace ImagesR2

/-- JavaScript `s.split(sep)` for a one-character separator. -/
def jsSplit (sep : Char) : List Char → List (List Char)
  | [] => [[]]
  | c :: rest =>
    if c = sep then [] :: jsSplit sep rest
    else
      match jsSplit sep rest with
      | [] => [[c]]
      | h :: t => (c :: h) :: t

/-- `content.substring(0, idx).split('\n').length - 1` from `buildItems`. -/
def lineOfIdx (content : List Char) (idx : Nat) : Nat :=
  (jsSplit '\n' (content.take idx)).length - 1

/-- The extension allow-list of the local-image regex (lower case). -/
def imageExts : List (List Char) :=
  ["png".toList, "jpg".toList, "jpeg".toList, "gif".toList, "webp".toList,
   "svg".toList, "bmp".toList, "ico".toList, "tiff".toList, "tif".toList]

/-- Whether `content` (the characters strictly between the brackets of
`![[` and `]]`, which by construction contain no `]`) is accepted by the
group `([^\]]+\.(png|jpg|...))` of the case-insensitive local regex:
it must end in a dot plus an allow-listed extension, with at least one
character before the dot. -/
def localContentOk (content : List Char) : Bool :=
  imageExts.any (fun e =>
    List.isSuffixOf ('.' :: e) (content.map Char.toLower) &&
    decide (e.length + 2 ≤ content.length))

/-- If the local-image regex `/!\[\[([^\]]+\.(ext...))\]\]/gi` matches at the
head of `s`, return the match length together with capture group 1.
Since `[^\]]+` cannot cross a `]` and the group is followed by `]]`, the
group extends exactly to the first `]` after `![[`. -/
def localHead (s : List Char) : Option (Nat × List Char) :=
  match s with
  | '!' :: '[' :: '[' :: t =>
    let content := t.takeWhile (fun c => c != ']')
    match t.dropWhile (fun c => c != ']') with
    | ']' :: ']' :: _ =>
      if localContentOk content then some (content.length + 5, content) else none
    | _ => none
  | _ => none

/-- One raw match of the local-image regex: start index, matched text
(`m[0]`) and capture group 1 (`m[1]`, the image path). -/
structure LocalMatch where
  idx : Nat
  raw : List Char
  path : List Char
deriving DecidableEq

/-- `matchAll` scanning loop for the local regex: try a match at every
position, and continue after the end of each match.  The fuel argument is
the length of the remaining text; every step consumes at least one
character, so the fuel never runs out. -/
def scanLocalAux : Nat → List Char → Nat → List LocalMatch
  | 0, _, _ => []
  | _, [], _ => []
  | fuel + 1, c :: rest, i =>
    match localHead (c :: rest) with
    | some (n, g) =>
      { idx := i, raw := (c :: rest).take n, path := g } ::
        scanLocalAux fuel ((c :: rest).drop n) (i + n)
    | none => scanLocalAux fuel rest (i + 1)

/-- All matches of `content.matchAll(localRegex)` (before deduplication). -/
def scanLocal (s : List Char) (i : Nat) : List LocalMatch :=
  scanLocalAux s.length s i

/-- The JavaScript regex `\s` character class. -/
def isJsSpace (c : Char) : Bool :=
  c = ' ' || c = '\t' || c = '\n' || c = '\r' ||
  c.toNat = 11 || c.toNat = 12 || c.toNat = 0xa0 || c.toNat = 0x1680 ||
  (0x2000 ≤ c.toNat && c.toNat ≤ 0x200a) ||
  c.toNat = 0x2028 || c.toNat = 0x2029 || c.toNat = 0x202f ||
  c.toNat = 0x205f || c.toNat = 0x3000 || c.toNat = 0xfeff

/-- Length matched by `https?:\/\/` (case-insensitive) at the head of `u`. -/
def schemeLen (u : List Char) : Option Nat :=
  if List.isPrefixOf ("https://".toList) (u.map Char.toLower) then some 8
  else if List.isPrefixOf ("http://".toList) (u.map Char.toLower) then some 7
  else none

/-- If the remote-image regex `/!\[([^\]]*)\]\((https?:\/\/[^)\s]+)\)/gi`
matches at the head of `s`, return the match length, the alt text
(`m[1]`) and the URL (`m[2]`). -/
def remoteHead (s : List Char) : Option (Nat × List Char × List Char) :=
  match s with
  | '!' :: '[' :: t =>
    let alt := t.takeWhile (fun c => c != ']')
    match t.dropWhile (fun c => c != ']') with
    | ']' :: '(' :: u =>
      match schemeLen u with
      | some k =>
        let tail := (u.drop k).takeWhile (fun c => c != ')' && !isJsSpace c)
        if tail.length = 0 then none
        else
          match u.drop (k + tail.length) with
          | ')' :: _ =>
            some (alt.length + k + tail.length + 5, alt, u.take (k + tail.length))
          | _ => none
      | none => none
    | _ => none
  | _ => none

/-- One raw match of the remote-image regex. -/
structure RemoteMatch where
  idx : Nat
  raw : List Char
  alt : List Char
  url : List Char
deriving DecidableEq

/-- `matchAll` scanning loop for the remote regex. -/
def scanRemoteAux : Nat → List Char → Nat → List RemoteMatch
  | 0, _, _ => []
  | _, [], _ => []
  | fuel + 1, c :: rest, i =>
    match remoteHead (c :: rest) with
    | some (n, a, u) =>
      { idx := i, raw := (c :: rest).take n, alt := a, url := u } ::
        scanRemoteAux fuel ((c :: rest).drop n) (i + n)
    | none => scanRemoteAux fuel rest (i + 1)

/-- All matches of `content.matchAll(remoteRegex)` (before deduplication). -/
def scanRemote (s : List Char) (i : Nat) : List RemoteMatch :=
  scanRemoteAux s.length s i

/-- The `filter` with a `seen` set used in `buildItems`: keep the first
element for each key, drop later repeats. -/
def dedupBy {α β : Type} [DecidableEq β] (key : α → β) :
    List α → List β → List α
  | [], _ => []
  | x :: xs, seen =>
    if key x ∈ seen then dedupBy key xs seen
    else x :: dedupBy key xs (key x :: seen)

/-- The deduplicated local matches of `buildItems` (`localMatches`). -/
def extractLocal (content : List Char) : List LocalMatch :=
  dedupBy (fun m => m.raw) (scanLocal content 0) []

/-- The deduplicated remote matches of `buildItems` (`remoteMatches`). -/
def extractRemote (content : List Char) : List RemoteMatch :=
  dedupBy (fun m => m.raw) (scanRemote content 0) []

/-- The per-item transfer status (`ItemStatus` in the source; `uploading`
is the in-flight/"transferring" state for both directions). -/
inductive ItemStatus
  | idle
  | uploading
  | done
  | failed
deriving DecidableEq

/-- A vault file handle (the fields of `TFile` the source reads). -/
structure FileHandle where
  path : List Char
  name : List Char
  extension : List Char
deriving DecidableEq

/-- A tracked local image (`ImageItem` in the source). -/
structure ImageItem where
  fullMatch : List Char
  imagePath : List Char
  fileName : List Char
  file : Option FileHandle
  status : ItemStatus
  line : Nat
  error : Option (List Char)
deriving DecidableEq

/-- A tracked remote image (`RemoteImageItem` in the source). -/
structure RemoteImageItem where
  fullMatch : List Char
  altText : List Char
  url : List Char
  fileName : List Char
  isR2 : Bool
  status : ItemStatus
  line : Nat
  error : Option (List Char)
deriving DecidableEq

/-- Host collaborators consumed by `buildItems`:
`resolve` is `plugin.resolveImageFile(imagePath, activeFile)` (metadata
cache plus vault fallback), `pathnameOf` is `new URL(url).pathname`
(`none` when the constructor throws), `decodeURI` is JavaScript
`decodeURIComponent` (`none` when it throws), and `customDomain` is the
trimmed custom-domain setting. -/
structure HostEnv where
  resolve : List Char → List Char → Option FileHandle
  pathnameOf : List Char → Option (List Char)
  decodeURI : List Char → Option (List Char)
  customDomain : List Char

/-- JavaScript `new Map(l.map(x => [key(x), x])).get(k)`: when several
entries share a key the last one wins. -/
def jsMapGet {α β : Type} [DecidableEq β] (key : α → β) (l : List α)
    (k : β) : Option α :=
  match l with
  | [] => none
  | x :: rest =>
    match jsMapGet key rest k with
    | some r => some r
    | none => if key x = k then some x else none

/-- The character class `[<>:"/\\|?*]` sanitized in `fileNameFromUrl`. -/
def badNameChar (c : Char) : Bool :=
  c = '<' || c = '>' || c = ':' || c = '"' || c = '/' || c = '\\' ||
  c = '|' || c = '?' || c = '*'

/-- `R2UploaderView.fileNameFromUrl`. -/
def fileNameFromUrl (env : HostEnv) (url : List Char) : List Char :=
  match env.pathnameOf url with
  | none => "image.jpg".toList
  | some pathname =>
    let rawName := ((jsSplit '/' pathname).getLast?).getD []
    match env.decodeURI rawName with
    | none => "image.jpg".toList
    | some dec =>
      let name := dec.map (fun c => if badNameChar c then '_' else c)
      if name.length = 0 || !(name.contains '.') then "image.jpg".toList
      else name

/-- Helper for the unanchored test of `/https?:\/\/[^\/]+\.r2\.dev\//i`:
after the scheme, at least one non-`/` character followed by the literal
`.r2.dev/`. -/
def r2Tail : List Char → Bool
  | [] => false
  | c :: rest =>
    c != '/' &&
      (List.isPrefixOf (".r2.dev/".toList) (rest.map Char.toLower) || r2Tail rest)

/-- `regex.test(url)` for `/https?:\/\/[^\/]+\.r2\.dev\//i`: the pattern
may match starting at any position of `url`. -/
def r2DevTest : List Char → Bool
  | [] => false
  | c :: rest =>
    (match schemeLen (c :: rest) with
     | some k => r2Tail ((c :: rest).drop k)
     | none => false) || r2DevTest rest

/-- `R2UploaderView.isR2Url`. -/
def isR2Url (customDomain url : List Char) : Bool :=
  (customDomain != [] && List.isPrefixOf customDomain url) || r2DevTest url

/-- The arrow function the source maps over `localMatches`: look the raw
text up in the previous tracked list (empty lookup when the file changed),
carry the found item forward with a refreshed line number, otherwise
create a fresh idle item. -/
def buildLocalItem (env : HostEnv) (prev : List ImageItem)
    (fileChanged : Bool) (filePath content : List Char)
    (m : LocalMatch) : ImageItem :=
  let line := lineOfIdx content m.idx
  match (if fileChanged then none
         else jsMapGet (fun i => i.fullMatch) prev m.raw) with
  | some ex => { ex with line := line }
  | none =>
    let resolved := env.resolve m.path filePath
    { fullMatch := m.raw
      imagePath := m.path
      fileName := (resolved.map (fun f => f.name)).getD m.path
      file := resolved
      status := ItemStatus.idle
      line := line
      error := none }

/-- The rebuilt `this.items` of `buildItems`. -/
def buildLocalItems (env : HostEnv) (prev : List ImageItem)
    (fileChanged : Bool) (filePath content : List Char) : List ImageItem :=
  (extractLocal content).map (buildLocalItem env prev fileChanged filePath content)

/-- The arrow function the source maps over `remoteMatches`. -/
def buildRemoteItem (env : HostEnv) (prev : List RemoteImageItem)
    (fileChanged : Bool) (content : List Char)
    (m : RemoteMatch) : RemoteImageItem :=
  let line := lineOfIdx content m.idx
  match (if fileChanged then none
         else jsMapGet (fun i => i.fullMatch) prev m.raw) with
  | some ex => { ex with line := line }
  | none =>
    { fullMatch := m.raw
      altText := m.alt
      url := m.url
      fileName := fileNameFromUrl env m.url
      isR2 := isR2Url env.customDomain m.url
      status := ItemStatus.idle
      line := line
      error := none }

/-- The rebuilt `this.remoteItems` of `buildItems`. -/
def buildRemoteItems (env : HostEnv) (prev : List RemoteImageItem)
    (fileChanged : Bool) (content : List Char) : List RemoteImageItem :=
  (extractRemote content).map (buildRemoteItem env prev fileChanged content)

/-- The mutable state of `R2UploaderView` relevant to reconciliation:
both tracked lists, the tracked document path, and whether a debounced
refresh is pending (`refreshTimer`). -/
structure ViewState where
  items : List ImageItem
  remoteItems : List RemoteImageItem
  currentFilePath : Option (List Char)
  refreshTimer : Bool
deriving DecidableEq

/-- `R2UploaderView.buildItems`. -/
def buildItems (env : HostEnv) (st : ViewState)
    (filePath content : List Char) : ViewState :=
  let fileChanged : Bool := decide (¬ st.currentFilePath = some filePath)
  { st with
    currentFilePath := some filePath
    items := buildLocalItems env st.items fileChanged filePath content
    remoteItems := buildRemoteItems env st.remoteItems fileChanged content }

/-- `R2UploaderView.refreshForFile`: no file, or a non-markdown file,
clears both tracked lists; a markdown file is rebuilt via `buildItems`. -/
def refreshForFile (env : HostEnv) (st : ViewState)
    (file : Option FileHandle) (content : List Char) : ViewState :=
  match file with
  | none => { st with currentFilePath := none, items := [], remoteItems := [] }
  | some f =>
    if f.extension != "md".toList then
      { st with currentFilePath := none, items := [], remoteItems := [] }
    else buildItems env st f.path content

/-- The guard of the `editor-change` handler: is any tracked item (local
or remote) in the in-flight `uploading` state? -/
def anyUploading (st : ViewState) : Bool :=
  st.items.any (fun i => i.status == ItemStatus.uploading) ||
  st.remoteItems.any (fun i => i.status == ItemStatus.uploading)

/-- The `editor-change` handler registered in `onOpen`: while any item is
in flight the notification returns immediately (it is dropped, the timer
is left as it was); otherwise the debounce timer is (re)armed. -/
def editorChangeHandler (st : ViewState) : ViewState :=
  if anyUploading st then st else { st with refreshTimer := true }

/-- JavaScript `s.lastIndexOf(c)`: index of the last occurrence, `none`
for the `-1` result. -/
def jsLastIndexOf (c : Char) : List Char → Option Nat
  | [] => none
  | x :: xs =>
    match jsLastIndexOf c xs with
    | some i => some (i + 1)
    | none => if x = c then some 0 else none

/-- `R2UploaderView.uniquePath`: the vault is modelled by its membership
test, and `uuid` is the string returned by `crypto.randomUUID()` (the
code keeps its first 8 characters). -/
def uniquePath (vault : List Char → Bool) (uuid path : List Char) :
    List Char :=
  if vault path = false then path
  else
    match jsLastIndexOf '.' path with
    | some i => path.take i ++ '-' :: uuid.take 8 ++ path.drop i
    | none => path ++ '-' :: uuid.take 8

/-- Characters `encodeURIComponent` leaves unescaped. -/
def isUnreserved (c : Char) : Bool :=
  c.isAlpha || c.isDigit || c = '-' || c = '_' || c = '.' || c = '!' ||
  c = '~' || c = '*' || c = Char.ofNat 39 || c = '(' || c = ')'

/-- UTF-8 bytes of a scalar value. -/
def utf8Bytes (c : Char) : List Nat :=
  let n := c.toNat
  if n < 0x80 then [n]
  else if n < 0x800 then [0xC0 + n / 64, 0x80 + n % 64]
  else if n < 0x10000 then
    [0xE0 + n / 4096, 0x80 + (n / 64) % 64, 0x80 + n % 64]
  else
    [0xF0 + n / 262144, 0x80 + (n / 4096) % 64, 0x80 + (n / 64) % 64,
     0x80 + n % 64]

/-- Upper-case hexadecimal digit. -/
def hexDigit (n : Nat) : Char :=
  if n < 10 then Char.ofNat (48 + n) else Char.ofNat (55 + n)

/-- `%XX` escape of one byte. -/
def pctEncodeByte (b : Nat) : List Char :=
  ['%', hexDigit (b / 16), hexDigit (b % 16)]

/-- JavaScript `encodeURIComponent`. -/
def encodeURIComponent (s : List Char) : List Char :=
  s.flatMap (fun c =>
    if isUnreserved c then [c] else (utf8Bytes c).flatMap pctEncodeByte)

/-- The string `HTTP <status>`. -/
def httpError (status : Nat) : List Char :=
  "HTTP ".toList ++ (Nat.repr status).toList

/-- The plugin settings (all strings, already trimmed by the settings
tab, the custom domain stripped of a trailing slash). -/
structure ImagesR2Settings where
  accountId : List Char
  r2Token : List Char
  bucketName : List Char
  customDomain : List Char
  downloadFolder : List Char
deriving DecidableEq

/-- The parsed JSON body of the object-store PUT response: the success
flag and error messages the code reads, plus the key the store reports
(`result.key`), which the code never reads. -/
structure R2Json where
  success : Bool
  errors : List (List Char)
  reportedKey : Option (List Char)
deriving DecidableEq

/-- A PUT response: HTTP status and the parsed body (`none` when the
`response.json` getter throws on a non-JSON body). -/
structure R2Response where
  status : Nat
  json : Option R2Json
deriving DecidableEq

/-- The result type of `uploadImageFile`. -/
inductive UploadResult
  | success (publicUrl : List Char)
  | failure (error : List Char)
deriving DecidableEq

/-- `ImagesR2Plugin.uploadImageFile`.  `readBinary` is the outcome of
`vault.readBinary` (the bytes themselves are irrelevant to control flow)
and `net` the outcome of the `requestUrl` PUT (`Except.error` = network
rejection). -/
def uploadImageFile (s : ImagesR2Settings)
    (readBinary : Except (List Char) Unit)
    (net : Except (List Char) R2Response)
    (file : FileHandle) (baseUrl : List Char) : UploadResult :=
  if s.accountId = [] ∨ s.r2Token = [] ∨ s.bucketName = [] then
    UploadResult.failure ("Missing configuration".toList)
  else
    match readBinary with
    | Except.error e => UploadResult.failure e
    | Except.ok _ =>
      match net with
      | Except.error e => UploadResult.failure e
      | Except.ok resp =>
        if resp.status ≠ 200 then
          UploadResult.failure
            (match resp.json with
             | some j => (j.errors.head?).getD (httpError resp.status)
             | none => httpError resp.status)
        else
          match resp.json with
          | none => UploadResult.failure ("Invalid response".toList)
          | some j =>
            if !j.success then
              UploadResult.failure ((j.errors.head?).getD ("Unknown error".toList))
            else
              UploadResult.success (baseUrl ++ '/' :: encodeURIComponent file.name)

/-- Replace the key reported in the response body, leaving everything
else unchanged. -/
def setReportedKey (net : Except (List Char) R2Response)
    (k : Option (List Char)) : Except (List Char) R2Response :=
  match net with
  | Except.ok r =>
    Except.ok { r with json := r.json.map (fun j => { j with reportedKey := k }) }
  | Except.error e => Except.error e

/-- The managed-domain endpoint response: HTTP status and the value of
`response.json?.result?.domain` (`none` when absent). -/
structure ManagedDomainResponse where
  status : Nat
  domain : Option (List Char)
deriving DecidableEq

/-- `ImagesR2Plugin.fetchManagedDomain`.  `Except.error` covers both a
network rejection and a body on which the `response.json` getter throws;
either way the `catch` returns `null`. -/
def fetchManagedDomain (net : Except Unit ManagedDomainResponse) :
    Option (List Char) :=
  match net with
  | Except.error _ => none
  | Except.ok r =>
    if r.status ≠ 200 then none
    else
      match r.domain with
      | none => none
      | some d => if d = [] then none else some ("https://".toList ++ d)

/-- `ImagesR2Plugin.resolveBaseUrl`. -/
def resolveBaseUrl (s : ImagesR2Settings)
    (net : Except Unit ManagedDomainResponse) : Option (List Char) :=
  if ¬ s.customDomain = [] then some s.customDomain
  else if s.accountId = [] ∨ s.r2Token = [] ∨ s.bucketName = [] then none
  else fetchManagedDomain net

/-- The failure condition of the managed-domain query as the claim states
it: a network error, a non-200 status, or no usable domain in the body. -/
def managedQueryFailed (net : Except Unit ManagedDomainResponse) : Prop :=
  match net with
  | Except.error _ => True
  | Except.ok r => r.status ≠ 200 ∨ r.domain = none ∨ r.domain = some []

/-- Outcome of the document-rewrite step in `doUpload` / `doDownload`:
no editor is attached to the document, the whole-buffer
read-substitute-write succeeds, or one of the editor calls throws. -/
inductive RewriteOutcome
  | noEditor
  | ok
  | throws (msg : List Char)
deriving DecidableEq

/-- Boolean success test for an `Except` outcome. -/
def exceptOk {ε : Type} : Except ε Unit → Bool
  | Except.ok _ => true
  | Except.error _ => false

/-- Observable outcome of one `doUpload` run: the final tracked item, and
whether the document was rewritten, an upload record was appended, the
delayed removal was scheduled, and whether an exception escaped the
function (it has no try/catch). -/
structure UploadRun where
  item : ImageItem
  docRewritten : Bool
  recordAppended : Bool
  removalScheduled : Bool
  raised : Option (List Char)
deriving DecidableEq

/-- `R2UploaderView.doUpload`.  The item is first moved to `uploading`
with its error cleared.  On failure of the blob client the item becomes
`failed` carrying the returned message and nothing else happens.  On
success the item becomes `done`; then the document rewrite runs (an
exception here escapes, since `doUpload` has no try/catch, leaving the
item `done`); then `records.addUpload` is invoked without `await`, so its
failure is an unhandled rejection that changes nothing here; then the
delayed removal is scheduled. -/
def doUpload (item : ImageItem) (uploadRes : UploadResult)
    (rewrite : RewriteOutcome) (recordWrite : Except (List Char) Unit) :
    UploadRun :=
  let started := { item with status := ItemStatus.uploading,
                             error := (none : Option (List Char)) }
  match uploadRes with
  | UploadResult.failure e =>
    { item := { started with status := ItemStatus.failed, error := some e }
      docRewritten := false
      recordAppended := false
      removalScheduled := false
      raised := none }
  | UploadResult.success _ =>
    let succeeded := { started with status := ItemStatus.done }
    match rewrite with
    | RewriteOutcome.throws m =>
      { item := succeeded
        docRewritten := false
        recordAppended := false
        removalScheduled := false
        raised := some m }
    | RewriteOutcome.noEditor =>
      { item := succeeded
        docRewritten := false
        recordAppended := exceptOk recordWrite
        removalScheduled := true
        raised := none }
    | RewriteOutcome.ok =>
      { item := succeeded
        docRewritten := true
        recordAppended := exceptOk recordWrite
        removalScheduled := true
        raised := none }

/-- The collaborator outcomes one `doDownload` run depends on: the GET
(`Except.error` = network rejection, otherwise the HTTP status), the
`vault.createBinary` write, the post-write `getAbstractFileByPath`
lookup, the document rewrite, and the record-log write. -/
structure DownloadDeps where
  fetch : Except (List Char) Nat
  write : Except (List Char) Unit
  saved : Option FileHandle
  rewrite : RewriteOutcome
  record : Except (List Char) Unit

/-- Observable outcome of one `doDownload` run. -/
structure DownloadRun where
  item : RemoteImageItem
  fileWritten : Bool
  docRewritten : Bool
  recordAppended : Bool
  removalScheduled : Bool
deriving DecidableEq

/-- `R2UploaderView.doDownload`.  The whole body runs inside try/catch:
a network rejection, a write failure, a failed post-write lookup
(`throw new Error('File not saved')`) and a throwing document rewrite all
land in the catch, which marks the item `failed` with the error message.
A non-2xx status fails early with `HTTP <status>`.  Only after a
successful rewrite is the item marked `done`; `records.addDownload` is
then invoked without `await`, so its failure is unreported, and the
delayed removal is scheduled. -/
def doDownload (item : RemoteImageItem) (d : DownloadDeps) : DownloadRun :=
  let started := { item with status := ItemStatus.uploading,
                             error := (none : Option (List Char)) }
  match d.fetch with
  | Except.error m =>
    { item := { started with status := ItemStatus.failed, error := some m }
      fileWritten := false, docRewritten := false
      recordAppended := false, removalScheduled := false }
  | Except.ok status =>
    if status < 200 ∨ 300 ≤ status then
      { item := { started with status := ItemStatus.failed,
                               error := some (httpError status) }
        fileWritten := false, docRewritten := false
        recordAppended := false, removalScheduled := false }
    else
      match d.write with
      | Except.error m =>
        { item := { started with status := ItemStatus.failed, error := some m }
          fileWritten := false, docRewritten := false
          recordAppended := false, removalScheduled := false }
      | Except.ok _ =>
        match d.saved with
        | none =>
          { item := { started with status := ItemStatus.failed,
                                   error := some ("File not saved".toList) }
            fileWritten := true, docRewritten := false
            recordAppended := false, removalScheduled := false }
        | some _ =>
          match d.rewrite with
          | RewriteOutcome.throws m =>
            { item := { started with status := ItemStatus.failed,
                                     error := some m }
              fileWritten := true, docRewritten := false
              recordAppended := false, removalScheduled := false }
          | RewriteOutcome.noEditor =>
            { item := { started with status := ItemStatus.done }
              fileWritten := true, docRewritten := false
              recordAppended := exceptOk d.record, removalScheduled := true }
          | RewriteOutcome.ok =>
            { item := { started with status := ItemStatus.done }
              fileWritten := true, docRewritten := true
              recordAppended := exceptOk d.record, removalScheduled := true }

/-- An upload audit entry (`UploadRecord` in `records.ts`). -/
structure UploadRecord where
  fileName : List Char
  localPath : List Char
  publicUrl : List Char
  customUrl : List Char
  notePath : List Char
  noteFileName : List Char
  at_ : List Char
deriving DecidableEq

/-- A download audit entry (`DownloadRecord` in `records.ts`). -/
structure DownloadRecord where
  fileName : List Char
  localPath : List Char
  remoteUrl : List Char
  notePath : List Char
  noteFileName : List Char
  at_ : List Char
deriving DecidableEq

/-- `ImageRecord = UploadRecord | DownloadRecord`. -/
inductive ImageRecord
  | upload (r : UploadRecord)
  | download (r : DownloadRecord)
deriving DecidableEq

/-- The durable records file at `RECORDS_PATH`: missing (`adapter.read`
throws), present but not parsable JSON (`JSON.parse` throws), or a parsed
record array. -/
inductive RecordFile
  | missing
  | unparsable
  | parsed (rs : List ImageRecord)
deriving DecidableEq

/-- The state of a `RecordsManager`: the lazily hydrated in-memory cache
(`this.records`, `none` before first access) and the durable file. -/
structure RecState where
  cache : Option (List ImageRecord)
  file : RecordFile
deriving DecidableEq

/-- `RecordsManager.load`: return the cache when hydrated; otherwise
hydrate from the file, falling back to the empty list when the read or
the parse throws. -/
def rmLoad (st : RecState) : List ImageRecord × RecState :=
  match st.cache with
  | some rs => (rs, st)
  | none =>
    match st.file with
    | RecordFile.parsed rs => (rs, { st with cache := some rs })
    | _ => ([], { st with cache := some [] })

/-- `RecordsManager.addUpload` / `addDownload` after the record object is
built: load, push the record onto the cached array, then `save` rewrites
the whole durable file from the cache.  When the write fails the file is
unchanged (the exception propagates to the caller). -/
def rmAdd (r : ImageRecord) (writeOk : Bool) (st : RecState) : RecState :=
  let loaded := rmLoad st
  let rs := loaded.fst ++ [r]
  let st1 := { loaded.snd with cache := some rs }
  if writeOk then { st1 with file := RecordFile.parsed rs } else st1

/-- `RecordsManager.addUpload`. -/
def addUpload (r : UploadRecord) (writeOk : Bool) (st : RecState) :
    RecState :=
  rmAdd (ImageRecord.upload r) writeOk st

/-- `RecordsManager.addDownload`. -/
def addDownload (r : DownloadRecord) (writeOk : Bool) (st : RecState) :
    RecState :=
  rmAdd (ImageRecord.download r) writeOk st

/-! Concrete instances used by the per-claim witnesses. -/

/-- A host environment whose collaborators resolve nothing. -/
def env0 : HostEnv :=
  { resolve := fun _ _ => none
    pathnameOf := fun _ => none
    decodeURI := fun _ => none
    customDomain := [] }

/-- A previously tracked failed local item for `![[a.png]]`. -/
def itemA : ImageItem :=
  { fullMatch := "![[a.png]]".toList
    imagePath := "a.png".toList
    fileName := "a.png".toList
    file := none
    status := ItemStatus.failed
    line := 0
    error := some ("HTTP 500".toList) }

/-- A previously tracked idle local item for `![[gone.png]]`. -/
def itemB : ImageItem :=
  { fullMatch := "![[gone.png]]".toList
    imagePath := "gone.png".toList
    fileName := "gone.png".toList
    file := none
    status := ItemStatus.idle
    line := 3
    error := none }

/-- View state tracking `note.md` with items `itemA` and `itemB`. -/
def stC1 : ViewState :=
  { items := [itemA, itemB]
    remoteItems := []
    currentFilePath := some ("note.md".toList)
    refreshTimer := false }

/-- The re-extracted content of `note.md`: `![[a.png]]` moved down a
line and reoccurs, `![[gone.png]]` disappeared, `![[b.png]]` is new. -/
def docC1 : List Char :=
  "x\n![[a.png]] ![[b.png]]\n![[a.png]]".toList

/-- A view state with an in-flight upload and no pending debounce. -/
def stC2 : ViewState :=
  { items := [{ itemA with status := ItemStatus.uploading, error := none }]
    remoteItems := []
    currentFilePath := some ("note.md".toList)
    refreshTimer := false }

/-- A tracked remote item used by the C8 witness. -/
def itemR : RemoteImageItem :=
  { fullMatch := "![pic](https://example.com/cat.jpg)".toList
    altText := "pic".toList
    url := "https://example.com/cat.jpg".toList
    fileName := "cat.jpg".toList
    isR2 := false
    status := ItemStatus.idle
    line := 0
    error := none }

/-- The vault membership test of the C7 counterexample: both `a.png` and
the suffixed name the code will produce already exist. -/
def c7vault (p : List Char) : Bool :=
  p == "a.png".toList || p == "a-01234567.png".toList

/-- The `crypto.randomUUID()` value of the C7 counterexample. -/
def c7uuid : List Char := "01234567-89ab-cdef-0123-456789abcdef".toList

/-! Generic lemmas about the embedded JavaScript primitives. -/

theorem jsSplit_ne_nil (sep : Char) (s : List Char) : jsSplit sep s ≠ [] := by
  induction s with
  | nil => simp [jsSplit]
  | cons c rest ih =>
    simp only [jsSplit]
    split
    · simp
    · match h : jsSplit sep rest with
      | [] => exact absurd h ih
      | h1 :: t => simp

theorem jsSplit_length (sep : Char) (s : List Char) :
    (jsSplit sep s).length = List.count sep s + 1 := by
  induction s with
  | nil => simp [jsSplit]
  | cons c rest ih =>
    simp only [jsSplit]
    split
    · rename_i hc
      subst hc
      simp [List.count_cons, ih]
    · rename_i hc
      match h : jsSplit sep rest with
      | [] => exact absurd h (jsSplit_ne_nil sep rest)
      | h1 :: t =>
        rw [h] at ih
        simp only [List.length_cons] at ih ⊢
        simp [List.count_cons, Ne.symm hc, ih]

theorem jsMapGet_eq_some {α β : Type} [DecidableEq β] (key : α → β)
    (l : List α) (k : β) (x : α) (h : jsMapGet key l k = some x) :
    x ∈ l ∧ key x = k := by
  induction l with
  | nil => simp [jsMapGet] at h
  | cons a rest ih =>
    simp only [jsMapGet] at h
    cases hr : jsMapGet key rest k with
    | some r =>
      simp only [hr, Option.some.injEq] at h
      subst h
      obtain ⟨hm, hk⟩ := ih hr
      exact ⟨List.mem_cons_of_mem a hm, hk⟩
    | none =>
      simp only [hr] at h
      by_cases hk : key a = k
      · simp only [if_pos hk, Option.some.injEq] at h
        subst h
        exact ⟨List.mem_cons_self a rest, hk⟩
      · simp [if_neg hk] at h

theorem jsMapGet_eq_none {α β : Type} [DecidableEq β] (key : α → β)
    (l : List α) (k : β) (h : jsMapGet key l k = none) :
    ∀ x ∈ l, key x ≠ k := by
  induction l with
  | nil => simp
  | cons a rest ih =>
    simp only [jsMapGet] at h
    cases hr : jsMapGet key rest k with
    | some r => simp [hr] at h
    | none =>
      simp only [hr] at h
      by_cases hk : key a = k
      · simp [if_pos hk] at h
      · intro x hx
        rcases List.mem_cons.mp hx with h1 | h1
        · subst h1; exact hk
        · exact ih hr x h1

theorem dedupBy_mem_sub {α β : Type} [DecidableEq β] (key : α → β)
    (l : List α) (x : α) :
    ∀ seen, x ∈ dedupBy key l seen → x ∈ l := by
  induction l with
  | nil => intro seen h; simp [dedupBy] at h
  | cons a rest ih =>
    intro seen h
    simp only [dedupBy] at h
    split at h
    · exact List.mem_cons_of_mem a (ih seen h)
    · rcases List.mem_cons.mp h with h1 | h1
      · exact List.mem_cons.mpr (Or.inl h1)
      · exact List.mem_cons_of_mem a (ih _ h1)

theorem dedupBy_key_not_seen {α β : Type} [DecidableEq β] (key : α → β)
    (l : List α) (x : α) :
    ∀ seen, x ∈ dedupBy key l seen → key x ∉ seen := by
  induction l with
  | nil => intro seen h; simp [dedupBy] at h
  | cons a rest ih =>
    intro seen h
    simp only [dedupBy] at h
    split at h
    · exact ih seen h
    · rename_i hnot
      rcases List.mem_cons.mp h with h1 | h1
      · subst h1; exact hnot
      · have := ih _ h1
        intro hc
        exact this (List.mem_cons_of_mem _ hc)

theorem dedupBy_sublist {α β : Type} [DecidableEq β] (key : α → β)
    (l : List α) :
    ∀ seen, List.Sublist (dedupBy key l seen) l := by
  induction l with
  | nil => intro seen; simp [dedupBy]
  | cons a rest ih =>
    intro seen
    simp only [dedupBy]
    split
    · exact List.Sublist.cons a (ih seen)
    · exact List.Sublist.cons₂ a (ih _)

theorem dedupBy_nodup {α β : Type} [DecidableEq β] (key : α → β)
    (l : List α) :
    ∀ seen, ((dedupBy key l seen).map key).Nodup := by
  induction l with
  | nil => intro seen; simp [dedupBy]
  | cons a rest ih =>
    intro seen
    simp only [dedupBy]
    split
    · exact ih seen
    · simp only [List.map_cons, List.nodup_cons]
      refine ⟨?_, ih _⟩
      intro hc
      rcases List.mem_map.mp hc with ⟨y, hy, hky⟩
      have := dedupBy_key_not_seen key rest y _ hy
      exact this (by rw [hky]; exact List.mem_cons_self _ _)

theorem dedupBy_first {α β : Type} [DecidableEq β] (key : α → β)
    (l : List α) (x : α) :
    ∀ seen, x ∈ dedupBy key l seen →
      l.find? (fun z => decide (key z = key x)) = some x := by
  induction l with
  | nil => intro seen h; simp [dedupBy] at h
  | cons a rest ih =>
    intro seen h
    simp only [dedupBy] at h
    split at h
    · rename_i hseen
      have hne : ¬ key a = key x := by
        intro he
        exact dedupBy_key_not_seen key rest x seen h (he ▸ hseen)
      rw [List.find?_cons_of_neg _ (by simpa using hne)]
      exact ih seen h
    · rename_i hseen
      rcases List.mem_cons.mp h with h1 | h1
      · subst h1
        exact List.find?_cons_of_pos _ (by simp)
      · have hkx : key x ∉ key a :: seen :=
          dedupBy_key_not_seen key rest x _ h1
        have hne : ¬ key a = key x := by
          intro he
          exact hkx (by rw [← he]; exact List.mem_cons_self _ _)
        rw [List.find?_cons_of_neg _ (by simpa using hne)]
        exact ih _ h1

theorem dedupBy_keys_total {α β : Type} [DecidableEq β] (key : α → β)
    (l : List α) (x : α) (hx : x ∈ l) :
    ∀ seen, key x ∈ seen ∨ ∃ y ∈ dedupBy key l seen, key y = key x := by
  induction l with
  | nil => simp at hx
  | cons a rest ih =>
    intro seen
    simp only [dedupBy]
    rcases List.mem_cons.mp hx with h1 | h1
    · subst h1
      split
      · rename_i hs; exact Or.inl hs
      · exact Or.inr ⟨x, List.mem_cons_self _ _, rfl⟩
    · split
      · exact ih h1 seen
      · rcases ih h1 (key a :: seen) with h2 | ⟨y, hy, hky⟩
        · rcases List.mem_cons.mp h2 with h3 | h3
          · exact Or.inr ⟨a, List.mem_cons_self _ _, h3.symm⟩
          · exact Or.inl h3
        · exact Or.inr ⟨y, List.mem_cons_of_mem _ hy, hky⟩

/-! Shape lemmas for the per-match arrow functions of `buildItems`. -/

theorem buildLocalItem_carry (env : HostEnv) (prev : List ImageItem)
    (fp content : List Char) (m : LocalMatch) (ex : ImageItem)
    (hg : jsMapGet (fun i => i.fullMatch) prev m.raw = some ex) :
    buildLocalItem env prev false fp content m =
      { ex with line := lineOfIdx content m.idx } := by
  simp [buildLocalItem, hg]

theorem buildLocalItem_fresh (env : HostEnv) (prev : List ImageItem)
    (fp content : List Char) (m : LocalMatch)
    (hg : jsMapGet (fun i => i.fullMatch) prev m.raw = none) :
    buildLocalItem env prev false fp content m =
      { fullMatch := m.raw
        imagePath := m.path
        fileName := ((env.resolve m.path fp).map (fun f => f.name)).getD m.path
        file := env.resolve m.path fp
        status := ItemStatus.idle
        line := lineOfIdx content m.idx
        error := none } := by
  simp [buildLocalItem, hg]

theorem buildLocalItem_changed (env : HostEnv) (prev : List ImageItem)
    (fp content : List Char) (m : LocalMatch) :
    buildLocalItem env prev true fp content m =
      { fullMatch := m.raw
        imagePath := m.path
        fileName := ((env.resolve m.path fp).map (fun f => f.name)).getD m.path
        file := env.resolve m.path fp
        status := ItemStatus.idle
        line := lineOfIdx content m.idx
        error := none } := by
  simp [buildLocalItem]

theorem buildLocalItem_fullMatch (env : HostEnv) (prev : List ImageItem)
    (fc : Bool) (fp content : List Char) (m : LocalMatch) :
    (buildLocalItem env prev fc fp content m).fullMatch = m.raw := by
  cases fc with
  | true => rw [buildLocalItem_changed]
  | false =>
    cases hg : jsMapGet (fun i => i.fullMatch) prev m.raw with
    | some ex =>
      rw [buildLocalItem_carry env prev fp content m ex hg]
      exact (jsMapGet_eq_some _ _ _ _ hg).2
    | none => rw [buildLocalItem_fresh env prev fp content m hg]

theorem buildLocalItem_line (env : HostEnv) (prev : List ImageItem)
    (fc : Bool) (fp content : List Char) (m : LocalMatch) :
    (buildLocalItem env prev fc fp content m).line = lineOfIdx content m.idx := by
  cases fc with
  | true => rw [buildLocalItem_changed]
  | false =>
    cases hg : jsMapGet (fun i => i.fullMatch) prev m.raw with
    | some ex => rw [buildLocalItem_carry env prev fp content m ex hg]
    | none => rw [buildLocalItem_fresh env prev fp content m hg]

theorem buildRemoteItem_carry (env : HostEnv) (prev : List RemoteImageItem)
    (content : List Char) (m : RemoteMatch) (ex : RemoteImageItem)
    (hg : jsMapGet (fun i => i.fullMatch) prev m.raw = some ex) :
    buildRemoteItem env prev false content m =
      { ex with line := lineOfIdx content m.idx } := by
  simp [buildRemoteItem, hg]

theorem buildRemoteItem_fresh (env : HostEnv) (prev : List RemoteImageItem)
    (content : List Char) (m : RemoteMatch)
    (hg : jsMapGet (fun i => i.fullMatch) prev m.raw = none) :
    buildRemoteItem env prev false content m =
      { fullMatch := m.raw
        altText := m.alt
        url := m.url
        fileName := fileNameFromUrl env m.url
        isR2 := isR2Url env.customDomain m.url
        status := ItemStatus.idle
        line := lineOfIdx content m.idx
        error := none } := by
  simp [buildRemoteItem, hg]

theorem buildRemoteItem_changed (env : HostEnv) (prev : List RemoteImageItem)
    (content : List Char) (m : RemoteMatch) :
    buildRemoteItem env prev true content m =
      { fullMatch := m.raw
        altText := m.alt
        url := m.url
        fileName := fileNameFromUrl env m.url
        isR2 := isR2Url env.customDomain m.url
        status := ItemStatus.idle
        line := lineOfIdx content m.idx
        error := none } := by
  simp [buildRemoteItem]

theorem buildRemoteItem_fullMatch (env : HostEnv) (prev : List RemoteImageItem)
    (fc : Bool) (content : List Char) (m : RemoteMatch) :
    (buildRemoteItem env prev fc content m).fullMatch = m.raw := by
  cases fc with
  | true => rw [buildRemoteItem_changed]
  | false =>
    cases hg : jsMapGet (fun i => i.fullMatch) prev m.raw with
    | some ex =>
      rw [buildRemoteItem_carry env prev content m ex hg]
      exact (jsMapGet_eq_some _ _ _ _ hg).2
    | none => rw [buildRemoteItem_fresh env prev content m hg]

theorem buildRemoteItem_line (env : HostEnv) (prev : List RemoteImageItem)
    (fc : Bool) (content : List Char) (m : RemoteMatch) :
    (buildRemoteItem env prev fc content m).line = lineOfIdx content m.idx := by
  cases fc with
  | true => rw [buildRemoteItem_changed]
  | false =>
    cases hg : jsMapGet (fun i => i.fullMatch) prev m.raw with
    | some ex => rw [buildRemoteItem_carry env prev content m ex hg]
    | none => rw [buildRemoteItem_fresh env prev content m hg]

theorem buildLocalItems_map_fullMatch (env : HostEnv) (prev : List ImageItem)
    (fc : Bool) (fp content : List Char) :
    (buildLocalItems env prev fc fp content).map (fun i => i.fullMatch) =
      (extractLocal content).map (fun m => m.raw) := by
  simp only [buildLocalItems, List.map_map]
  exact List.map_congr_left (fun m _ => buildLocalItem_fullMatch env prev fc fp content m)

theorem buildRemoteItems_map_fullMatch (env : HostEnv)
    (prev : List RemoteImageItem) (fc : Bool) (content : List Char) :
    (buildRemoteItems env prev fc content).map (fun i => i.fullMatch) =
      (extractRemote content).map (fun m => m.raw) := by
  simp only [buildRemoteItems, List.map_map]
  exact List.map_congr_left (fun m _ => buildRemoteItem_fullMatch env prev fc content m)

theorem buildItems_items_same (env : HostEnv) (st : ViewState)
    (p content : List Char) (hsame : st.currentFilePath = some p) :
    (buildItems env st p content).items =
      buildLocalItems env st.items false p content := by
  simp [buildItems, hsame]

theorem buildItems_remote_same (env : HostEnv) (st : ViewState)
    (p content : List Char) (hsame : st.currentFilePath = some p) :
    (buildItems env st p content).remoteItems =
      buildRemoteItems env st.remoteItems false content := by
  simp [buildItems, hsame]

theorem buildItems_same (env : HostEnv) (st : ViewState)
    (p content : List Char) (hsame : st.currentFilePath = some p) :
    buildItems env st p content =
      { st with
        currentFilePath := some p
        items := buildLocalItems env st.items false p content
        remoteItems := buildRemoteItems env st.remoteItems false content } := by
  simp [buildItems, hsame]

theorem buildItems_changed (env : HostEnv) (st : ViewState)
    (p content : List Char) (hdiff : ¬ st.currentFilePath = some p) :
    buildItems env st p content =
      { st with
        currentFilePath := some p
        items := buildLocalItems env st.items true p content
        remoteItems := buildRemoteItems env st.remoteItems true content } := by
  simp [buildItems, hdiff]

theorem buildLocalItems_changed_indep (env : HostEnv) (prev : List ImageItem)
    (fp content : List Char) :
    buildLocalItems env prev true fp content =
      buildLocalItems env [] true fp content := by
  unfold buildLocalItems
  refine List.map_congr_left (fun m _ => ?_)
  rw [buildLocalItem_changed, buildLocalItem_changed]

theorem buildRemoteItems_changed_indep (env : HostEnv)
    (prev : List RemoteImageItem) (content : List Char) :
    buildRemoteItems env prev true content =
      buildRemoteItems env [] true content := by
  unfold buildRemoteItems
  refine List.map_congr_left (fun m _ => ?_)
  rw [buildRemoteItem_changed, buildRemoteItem_changed]

/-! Claim C1. -/

/-- C1: on a re-extraction over the same document the rebuilt tracked
lists consist exactly of the deduplicated current raw-text matches (their
raw texts, in order); a match whose raw text was already tracked keeps
the previous item's status and errorMessage (and every other field), with
only lineNumber refreshed to the current match position; a match not
previously tracked becomes a new idle item with no error (its file handle
freshly resolved); and every previously tracked item whose raw text no
longer occurs in the extraction is absent from the rebuilt list. -/
theorem c1_same_doc_rebuild (env : HostEnv) (st : ViewState)
    (p content : List Char)
    (hsame : st.currentFilePath = some p)
    (hnodL : (st.items.map (fun i => i.fullMatch)).Nodup)
    (hnodR : (st.remoteItems.map (fun i => i.fullMatch)).Nodup) :
    ((buildItems env st p content).items.map (fun i => i.fullMatch) =
       (extractLocal content).map (fun m => m.raw))
    ∧ ((buildItems env st p content).remoteItems.map (fun i => i.fullMatch) =
       (extractRemote content).map (fun m => m.raw))
    ∧ (∀ n ∈ (buildItems env st p content).items, ∀ ex ∈ st.items,
        ex.fullMatch = n.fullMatch →
          n.status = ex.status ∧ n.error = ex.error ∧
          n.imagePath = ex.imagePath ∧ n.fileName = ex.fileName ∧
          n.file = ex.file)
    ∧ (∀ n ∈ (buildItems env st p content).remoteItems, ∀ ex ∈ st.remoteItems,
        ex.fullMatch = n.fullMatch →
          n.status = ex.status ∧ n.error = ex.error ∧ n.altText = ex.altText ∧
          n.url = ex.url ∧ n.fileName = ex.fileName ∧ n.isR2 = ex.isR2)
    ∧ (∀ n ∈ (buildItems env st p content).items,
        (∀ ex ∈ st.items, ex.fullMatch ≠ n.fullMatch) →
          n.status = ItemStatus.idle ∧ n.error = none ∧
          n.file = env.resolve n.imagePath p)
    ∧ (∀ n ∈ (buildItems env st p content).remoteItems,
        (∀ ex ∈ st.remoteItems, ex.fullMatch ≠ n.fullMatch) →
          n.status = ItemStatus.idle ∧ n.error = none)
    ∧ (∀ n ∈ (buildItems env st p content).items,
        ∃ m ∈ extractLocal content, m.raw = n.fullMatch ∧
          n.line = lineOfIdx content m.idx)
    ∧ (∀ n ∈ (buildItems env st p content).remoteItems,
        ∃ m ∈ extractRemote content, m.raw = n.fullMatch ∧
          n.line = lineOfIdx content m.idx)
    ∧ (∀ ex ∈ st.items,
        ex.fullMatch ∉ (extractLocal content).map (fun m => m.raw) →
          ∀ n ∈ (buildItems env st p content).items, n.fullMatch ≠ ex.fullMatch)
    ∧ (∀ ex ∈ st.remoteItems,
        ex.fullMatch ∉ (extractRemote content).map (fun m => m.raw) →
          ∀ n ∈ (buildItems env st p content).remoteItems,
            n.fullMatch ≠ ex.fullMatch) := by
  rw [buildItems_items_same env st p content hsame,
      buildItems_remote_same env st p content hsame]
  refine ⟨buildLocalItems_map_fullMatch env st.items false p content,
          buildRemoteItems_map_fullMatch env st.remoteItems false content,
          ?_, ?_, ?_, ?_, ?_, ?_, ?_, ?_⟩
  · intro n hn ex hex hfm
    rcases List.mem_map.mp hn with ⟨m, hm, rfl⟩
    cases hg : jsMapGet (fun i => i.fullMatch) st.items m.raw with
    | some ex2 =>
      obtain ⟨hmem2, hkey2⟩ := jsMapGet_eq_some _ _ _ _ hg
      rw [buildLocalItem_carry env st.items p content m ex2 hg] at hfm ⊢
      have hexeq : ex = ex2 :=
        List.inj_on_of_nodup_map hnodL hex hmem2 (by simpa using hfm)
      subst hexeq
      simp
    | none =>
      have := jsMapGet_eq_none _ _ _ hg ex hex
      rw [buildLocalItem_fullMatch env st.items false p content m] at hfm
      exact absurd hfm this
  · intro n hn ex hex hfm
    rcases List.mem_map.mp hn with ⟨m, hm, rfl⟩
    cases hg : jsMapGet (fun i => i.fullMatch) st.remoteItems m.raw with
    | some ex2 =>
      obtain ⟨hmem2, hkey2⟩ := jsMapGet_eq_some _ _ _ _ hg
      rw [buildRemoteItem_carry env st.remoteItems content m ex2 hg] at hfm ⊢
      have hexeq : ex = ex2 :=
        List.inj_on_of_nodup_map hnodR hex hmem2 (by simpa using hfm)
      subst hexeq
      simp
    | none =>
      have := jsMapGet_eq_none _ _ _ hg ex hex
      rw [buildRemoteItem_fullMatch env st.remoteItems false content m] at hfm
      exact absurd hfm this
  · intro n hn hno
    rcases List.mem_map.mp hn with ⟨m, hm, rfl⟩
    cases hg : jsMapGet (fun i => i.fullMatch) st.items m.raw with
    | some ex2 =>
      obtain ⟨hmem2, hkey2⟩ := jsMapGet_eq_some _ _ _ _ hg
      have hfm := buildLocalItem_fullMatch env st.items false p content m
      exact absurd (hkey2.trans hfm.symm) (hno ex2 hmem2)
    | none =>
      rw [buildLocalItem_fresh env st.items p content m hg]
      simp
  · intro n hn hno
    rcases List.mem_map.mp hn with ⟨m, hm, rfl⟩
    cases hg : jsMapGet (fun i => i.fullMatch) st.remoteItems m.raw with
    | some ex2 =>
      obtain ⟨hmem2, hkey2⟩ := jsMapGet_eq_some _ _ _ _ hg
      have hfm := buildRemoteItem_fullMatch env st.remoteItems false content m
      exact absurd (hkey2.trans hfm.symm) (hno ex2 hmem2)
    | none =>
      rw [buildRemoteItem_fresh env st.remoteItems content m hg]
      simp
  · intro n hn
    rcases List.mem_map.mp hn with ⟨m, hm, rfl⟩
    exact ⟨m, hm, (buildLocalItem_fullMatch env st.items false p content m).symm,
           buildLocalItem_line env st.items false p content m⟩
  · intro n hn
    rcases List.mem_map.mp hn with ⟨m, hm, rfl⟩
    exact ⟨m, hm, (buildRemoteItem_fullMatch env st.remoteItems false content m).symm,
           buildRemoteItem_line env st.remoteItems false content m⟩
  · intro ex hex hnot n hn hne
    rcases List.mem_map.mp hn with ⟨m, hm, rfl⟩
    have hfm := buildLocalItem_fullMatch env st.items false p content m
    exact hnot (List.mem_map.mpr ⟨m, hm, by rw [← hfm, hne]⟩)
  · intro ex hex hnot n hn hne
    rcases List.mem_map.mp hn with ⟨m, hm, rfl⟩
    have hfm := buildRemoteItem_fullMatch env st.remoteItems false content m
    exact hnot (List.mem_map.mpr ⟨m, hm, by rw [← hfm, hne]⟩)

/-- Witness for C1: the tracked state `stC1` (a failed `![[a.png]]` item
and an idle `![[gone.png]]` item) reconciled against `docC1`, in which
`a.png` moved and reoccurs, `gone.png` disappeared and `b.png` is new. -/
theorem c1_same_doc_rebuild_witness :
    stC1.currentFilePath = some ("note.md".toList)
    ∧ (stC1.items.map (fun i => i.fullMatch)).Nodup
    ∧ (stC1.remoteItems.map (fun i => i.fullMatch)).Nodup
    ∧ (buildItems env0 stC1 ("note.md".toList) docC1).items.map
        (fun i => i.fullMatch) =
        ["![[a.png]]".toList, "![[b.png]]".toList] := by
  have h := c1_same_doc_rebuild env0 stC1 ("note.md".toList) docC1
    (by decide) (by decide) (by decide)
  exact ⟨by decide, by decide, by decide, h.1.trans (by decide)⟩

/-! Claim C3. -/

/-- C3: on a document switch both tracked lists are discarded with no
carry-forward.  Reconciling against no document, or a non-markdown file,
clears both lists to empty.  Reconciling against a document whose path
differs from the tracked one rebuilds both lists from scratch: the result
is identical to rebuilding from empty previous lists (so nothing of the
previous items — including failed ones — survives), and every rebuilt
item is idle with no error message. -/
theorem c3_document_switch_clears (env : HostEnv) (st : ViewState)
    (f : FileHandle) (p content : List Char) :
    ((refreshForFile env st none content).items = []
      ∧ (refreshForFile env st none content).remoteItems = [])
    ∧ (¬ f.extension = "md".toList →
        (refreshForFile env st (some f) content).items = []
        ∧ (refreshForFile env st (some f) content).remoteItems = [])
    ∧ (¬ st.currentFilePath = some p →
        buildItems env st p content =
          buildItems env
            { st with items := [], remoteItems := [] } p content
        ∧ (∀ n ∈ (buildItems env st p content).items,
            n.status = ItemStatus.idle ∧ n.error = none)
        ∧ (∀ n ∈ (buildItems env st p content).remoteItems,
            n.status = ItemStatus.idle ∧ n.error = none)) := by
  refine ⟨⟨rfl, rfl⟩, ?_, ?_⟩
  · intro hmd
    have hb : (f.extension != "md".toList) = true := by
      simpa [bne_iff_ne] using hmd
    have hmd2 : ¬ f.extension = ['m', 'd'] :=
      fun h => hmd (h.trans (by decide))
    constructor <;> simp [refreshForFile, hb, hmd2]
  · intro hdiff
    have hdiff2 :
        ¬ (ViewState.mk [] [] st.currentFilePath st.refreshTimer).currentFilePath
          = some p := hdiff
    refine ⟨?_, ?_, ?_⟩
    · rw [buildItems_changed env st p content hdiff,
          buildItems_changed env _ p content hdiff2]
      simp [buildLocalItems_changed_indep, buildRemoteItems_changed_indep]
    · intro n hn
      rw [buildItems_changed env st p content hdiff] at hn
      simp only [buildLocalItems] at hn
      rcases List.mem_map.mp hn with ⟨m, hm, rfl⟩
      rw [buildLocalItem_changed]
      exact ⟨rfl, rfl⟩
    · intro n hn
      rw [buildItems_changed env st p content hdiff] at hn
      simp only [buildRemoteItems] at hn
      rcases List.mem_map.mp hn with ⟨m, hm, rfl⟩
      rw [buildRemoteItem_changed]
      exact ⟨rfl, rfl⟩

/-- Witness for C3: a non-markdown file clears the lists of `stC1`, and
reconciling `stC1` (which holds a failed item) against the different
path `other.md` yields only idle, error-free items. -/
theorem c3_document_switch_clears_witness :
    ¬ (({ path := "a.txt".toList, name := "a.txt".toList,
          extension := "txt".toList } : FileHandle).extension = "md".toList)
    ∧ (refreshForFile env0 stC1
        (some { path := "a.txt".toList, name := "a.txt".toList,
                extension := "txt".toList }) []).items = []
    ∧ ¬ stC1.currentFilePath = some ("other.md".toList)
    ∧ (∀ n ∈ (buildItems env0 stC1 ("other.md".toList) docC1).items,
        n.status = ItemStatus.idle ∧ n.error = none) := by
  have h := c3_document_switch_clears env0 stC1
    { path := "a.txt".toList, name := "a.txt".toList,
      extension := "txt".toList } ("other.md".toList) docC1
  exact ⟨by decide, (h.2.1 (by decide)).1, by decide, (h.2.2 (by decide)).2.1⟩

/-! Claim C4. -/

/-- C4: extraction is a pure function — two runs over identical text give
the identical ordered list; the result is deduplicated by exact raw-text
equality within one pass with the first occurrence kept (the raw texts
are pairwise distinct, the result is an order-preserving sublist of the
full match list, every kept match is the first scan match with its raw
text, and every scan match has a representative); and the line number
computed for a match index equals the count of newline characters
preceding the match start. -/
theorem c4_extraction_pure_dedup_lines (content : List Char) :
    (extractLocal content = extractLocal content
      ∧ extractRemote content = extractRemote content)
    ∧ ((extractLocal content).map (fun m => m.raw)).Nodup
    ∧ ((extractRemote content).map (fun m => m.raw)).Nodup
    ∧ List.Sublist (extractLocal content) (scanLocal content 0)
    ∧ List.Sublist (extractRemote content) (scanRemote content 0)
    ∧ (∀ m ∈ extractLocal content,
        (scanLocal content 0).find? (fun z => decide (z.raw = m.raw)) = some m)
    ∧ (∀ m ∈ scanLocal content 0, ∃ m2 ∈ extractLocal content, m2.raw = m.raw)
    ∧ (∀ m ∈ extractRemote content,
        (scanRemote content 0).find? (fun z => decide (z.raw = m.raw)) = some m)
    ∧ (∀ m ∈ scanRemote content 0, ∃ m2 ∈ extractRemote content, m2.raw = m.raw)
    ∧ (∀ i, lineOfIdx content i = List.count '\n' (content.take i)) := by
  refine ⟨⟨rfl, rfl⟩, ?_, ?_, ?_, ?_, ?_, ?_, ?_, ?_, ?_⟩
  · exact dedupBy_nodup (fun m => m.raw) (scanLocal content 0) []
  · exact dedupBy_nodup (fun m => m.raw) (scanRemote content 0) []
  · exact dedupBy_sublist (fun m => m.raw) (scanLocal content 0) []
  · exact dedupBy_sublist (fun m => m.raw) (scanRemote content 0) []
  · intro m hm
    unfold extractLocal at hm
    exact dedupBy_first (fun m => m.raw) (scanLocal content 0) m [] hm
  · intro m hm
    rcases dedupBy_keys_total (fun m => m.raw) (scanLocal content 0) m hm []
      with h | ⟨y, hy, hky⟩
    · simp at h
    · exact ⟨y, hy, hky⟩
  · intro m hm
    unfold extractRemote at hm
    exact dedupBy_first (fun m => m.raw) (scanRemote content 0) m [] hm
  · intro m hm
    rcases dedupBy_keys_total (fun m => m.raw) (scanRemote content 0) m hm []
      with h | ⟨y, hy, hky⟩
    · simp at h
    · exact ⟨y, hy, hky⟩
  · intro i
    unfold lineOfIdx
    rw [jsSplit_length]
    simp

/-- Witness for C4 on a concrete document with a duplicated local match:
the deduplicated raw texts, the first-occurrence property at the kept
match, and the computed line number. -/
theorem c4_extraction_pure_dedup_lines_witness :
    ((extractLocal ("x\n![[a.png]] ![[a.png]]".toList)).map (fun m => m.raw)).Nodup
    ∧ (scanLocal ("x\n![[a.png]] ![[a.png]]".toList) 0).find?
        (fun z => decide (z.raw =
          ({ idx := 2, raw := "![[a.png]]".toList,
             path := "a.png".toList } : LocalMatch).raw)) =
        some { idx := 2, raw := "![[a.png]]".toList, path := "a.png".toList }
    ∧ lineOfIdx ("x\n![[a.png]] ![[a.png]]".toList) 13 = 1 := by
  have h := c4_extraction_pure_dedup_lines ("x\n![[a.png]] ![[a.png]]".toList)
  refine ⟨h.2.1, ?_, ?_⟩
  · exact h.2.2.2.2.2.1
      { idx := 2, raw := "![[a.png]]".toList, path := "a.png".toList }
      (by decide)
  · rw [h.2.2.2.2.2.2.2.2.2 13]
    decide

/-! Claim C2. -/

/-- C2 counterexample: in `stC2` one tracked item is in flight and no
debounce is pending.  The claim requires the passive notification to be
"debounced and deferred so that the rebuild is applied once no transfer
is in flight", i.e. a deferred rebuild should be left pending; but the
handler drops the notification entirely and leaves no timer armed. -/
theorem c2_deferred_rebuild_counterexample :
    ¬ (anyUploading stC2 = true →
       (editorChangeHandler stC2).refreshTimer = true) := by
  decide

/-- C2 amended: while any tracked item (local or remote) is in the
in-flight `uploading` state, a passive editor-change notification is a
complete no-op — the view state (both tracked lists, the tracked path,
and the debounce timer) is returned unchanged.  The notification is
dropped, not deferred: no rebuild is scheduled by it, and a rebuild
happens only when a later notification arrives with no transfer in
flight or on an explicit refresh. -/
theorem c2_suppressed_notification_noop (st : ViewState)
    (h : anyUploading st = true) : editorChangeHandler st = st := by
  simp [editorChangeHandler, h]

/-- Witness for C2 amended at the concrete state `stC2`. -/
theorem c2_suppressed_notification_noop_witness :
    anyUploading stC2 = true ∧ editorChangeHandler stC2 = stC2 :=
  ⟨by decide, c2_suppressed_notification_noop stC2 (by decide)⟩

/-! Claim C5. -/

/-- C5: whenever `uploadImageFile` succeeds, the returned public URL is
exactly the resolved base URL, a `/`, and the URL-encoded object key
(the file name); and the whole result is invariant under the key the
store reports in its response body — that key is never used for URL
construction. -/
theorem c5_public_url_formula (s : ImagesR2Settings)
    (readBinary : Except (List Char) Unit)
    (net : Except (List Char) R2Response)
    (file : FileHandle) (baseUrl url : List Char) :
    (uploadImageFile s readBinary net file baseUrl =
        UploadResult.success url →
      url = baseUrl ++ '/' :: encodeURIComponent file.name)
    ∧ (∀ k, uploadImageFile s readBinary (setReportedKey net k) file baseUrl =
        uploadImageFile s readBinary net file baseUrl) := by
  constructor
  · intro h
    by_cases hcfg : s.accountId = [] ∨ s.r2Token = [] ∨ s.bucketName = []
    · simp [uploadImageFile, hcfg] at h
    · cases readBinary with
      | error e => simp [uploadImageFile, hcfg] at h
      | ok u =>
        cases net with
        | error e => simp [uploadImageFile, hcfg] at h
        | ok resp =>
          by_cases hst : resp.status ≠ 200
          · simp [uploadImageFile, hcfg, hst] at h
          · cases hj : resp.json with
            | none => simp [uploadImageFile, hcfg, hst, hj] at h
            | some j =>
              by_cases hsucc : j.success
              · simp [uploadImageFile, hcfg, hst, hj, hsucc] at h
                exact h.symm
              · simp [uploadImageFile, hcfg, hst, hj, hsucc] at h
  · intro k
    cases net with
    | error e => rfl
    | ok resp =>
      cases hj : resp.json with
      | none => simp [uploadImageFile, setReportedKey, hj]
      | some j => simp [uploadImageFile, setReportedKey, hj]

/-- The settings used by the C5 witness (all credentials present, no
custom domain). -/
def sC5 : ImagesR2Settings :=
  { accountId := "acc".toList
    r2Token := "tok".toList
    bucketName := "bkt".toList
    customDomain := []
    downloadFolder := [] }

/-- The successful PUT response of the C5 witness; the store reports the
key `photo.png` in the body. -/
def netC5 : Except (List Char) R2Response :=
  Except.ok
    { status := 200
      json := some { success := true, errors := [],
                     reportedKey := some ("photo.png".toList) } }

/-- The uploaded file of the C5 witness. -/
def fileC5 : FileHandle :=
  { path := "photo.png".toList
    name := "photo.png".toList
    extension := "png".toList }

/-- Witness for C5: a concrete successful upload yields
`https://cdn.example.com/photo.png`, and swapping the reported key in the
response body does not change the result. -/
theorem c5_public_url_formula_witness :
    uploadImageFile sC5 (Except.ok ()) netC5 fileC5
        ("https://cdn.example.com".toList) =
      UploadResult.success ("https://cdn.example.com/photo.png".toList)
    ∧ ("https://cdn.example.com/photo.png".toList : List Char) =
        "https://cdn.example.com".toList ++ '/' :: encodeURIComponent fileC5.name
    ∧ uploadImageFile sC5 (Except.ok ())
        (setReportedKey netC5 (some ("other.png".toList))) fileC5
        ("https://cdn.example.com".toList) =
      uploadImageFile sC5 (Except.ok ()) netC5 fileC5
        ("https://cdn.example.com".toList) := by
  have h := c5_public_url_formula sC5 (Except.ok ()) netC5 fileC5
    ("https://cdn.example.com".toList)
    ("https://cdn.example.com/photo.png".toList)
  exact ⟨by decide, h.1 (by decide), h.2 (some ("other.png".toList))⟩

/-! Claim C6. -/

/-- C6: `resolveBaseUrl` returns the configured custom domain whenever it
is non-empty; otherwise, with any of account id, API token, or bucket
name absent it returns `none` (whatever the network would answer);
otherwise it returns `none` exactly when the managed-domain query fails —
a network error, a non-200 status, or no usable domain in the body. -/
theorem c6_resolveBaseUrl_spec (s : ImagesR2Settings)
    (net : Except Unit ManagedDomainResponse) :
    (¬ s.customDomain = [] → resolveBaseUrl s net = some s.customDomain)
    ∧ (s.customDomain = [] →
        (s.accountId = [] ∨ s.r2Token = [] ∨ s.bucketName = []) →
        resolveBaseUrl s net = none)
    ∧ (s.customDomain = [] → ¬ s.accountId = [] → ¬ s.r2Token = [] →
        ¬ s.bucketName = [] →
        (resolveBaseUrl s net = none ↔ managedQueryFailed net)) := by
  refine ⟨?_, ?_, ?_⟩
  · intro h
    simp [resolveBaseUrl, h]
  · intro h hm
    simp [resolveBaseUrl, h, hm]
  · intro h ha ht hb
    have hm : ¬ (s.accountId = [] ∨ s.r2Token = [] ∨ s.bucketName = []) := by
      tauto
    simp only [resolveBaseUrl, h, hm]
    cases net with
    | error u => simp [fetchManagedDomain, managedQueryFailed]
    | ok r =>
      by_cases hst : r.status = 200
      · cases hd : r.domain with
        | none => simp [fetchManagedDomain, managedQueryFailed, hst, hd]
        | some d =>
          by_cases hde : d = []
          · simp [fetchManagedDomain, managedQueryFailed, hst, hd, hde]
          · simp [fetchManagedDomain, managedQueryFailed, hst, hd, hde]
      · simp [fetchManagedDomain, managedQueryFailed, hst]

/-- Witness for C6: a set custom domain wins; a missing token yields
`none`; with full credentials and a 200 response carrying a usable
domain, the query did not fail and the result is not `none`. -/
theorem c6_resolveBaseUrl_spec_witness :
    resolveBaseUrl
        { accountId := [], r2Token := [], bucketName := []
          customDomain := "https://cdn.example.com".toList
          downloadFolder := [] } (Except.error ()) =
      some ("https://cdn.example.com".toList)
    ∧ resolveBaseUrl
        { accountId := "acc".toList, r2Token := [], bucketName := "bkt".toList
          customDomain := [], downloadFolder := [] } (Except.error ()) = none
    ∧ (resolveBaseUrl sC5
        (Except.ok { status := 200, domain := some ("pub-1.r2.dev".toList) }) =
          none ↔
        managedQueryFailed
          (Except.ok { status := 200, domain := some ("pub-1.r2.dev".toList) })) := by
  have h1 := c6_resolveBaseUrl_spec
    { accountId := [], r2Token := [], bucketName := []
      customDomain := "https://cdn.example.com".toList, downloadFolder := [] }
    (Except.error ())
  have h2 := c6_resolveBaseUrl_spec
    { accountId := "acc".toList, r2Token := [], bucketName := "bkt".toList
      customDomain := [], downloadFolder := [] } (Except.error ())
  have h3 := c6_resolveBaseUrl_spec sC5
    (Except.ok { status := 200, domain := some ("pub-1.r2.dev".toList) })
  exact ⟨h1.1 (by decide), h2.2.1 rfl (by simp),
         h3.2.2 rfl (by decide) (by decide) (by decide)⟩

/-! Claim C7. -/

/-- C7 counterexample: the vault `c7vault` holds both `a.png` and
`a-01234567.png`, and the UUID starts with `01234567`.  `uniquePath` on
`a.png` returns a different path, but that path still collides with an
existing file — the returned path is not non-colliding, refuting the
claim as stated. -/
theorem c7_collision_counterexample :
    c7vault ("a.png".toList) = true
    ∧ uniquePath c7vault c7uuid ("a.png".toList) ≠ "a.png".toList
    ∧ c7vault (uniquePath c7vault c7uuid ("a.png".toList)) = true := by
  exact ⟨by decide, by decide, by decide⟩

/-- C7 amended: if no file exists at the destination path it is returned
unchanged; if a file exists, a different path is returned, formed by
inserting `-` plus the first 8 characters of a random UUID before the
extension (after the last dot, or appended when there is no dot).  The
suffixed path is not itself re-checked for existence, so it is free of
collisions only when no file with that exact suffixed name exists. -/
theorem c7_uniquePath_amended (vault : List Char → Bool)
    (uuid path : List Char) :
    (vault path = false → uniquePath vault uuid path = path)
    ∧ (vault path = true →
        uniquePath vault uuid path ≠ path
        ∧ ((∃ i, jsLastIndexOf '.' path = some i ∧
              uniquePath vault uuid path =
                path.take i ++ '-' :: uuid.take 8 ++ path.drop i)
           ∨ (jsLastIndexOf '.' path = none ∧
              uniquePath vault uuid path = path ++ '-' :: uuid.take 8))) := by
  constructor
  · intro h
    simp [uniquePath, h]
  · intro h
    have hne : ¬ vault path = false := by simp [h]
    cases hi : jsLastIndexOf '.' path with
    | some i =>
      have hval : uniquePath vault uuid path =
          path.take i ++ '-' :: uuid.take 8 ++ path.drop i := by
        simp [uniquePath, hne, hi]
      refine ⟨?_, Or.inl ⟨i, rfl, hval⟩⟩
      intro heq
      have hlen := congrArg List.length (hval.symm.trans heq)
      simp only [List.length_append, List.length_cons] at hlen
      have htd : (path.take i).length + (path.drop i).length = path.length := by
        rw [← List.length_append, List.take_append_drop]
      omega
    | none =>
      have hval : uniquePath vault uuid path = path ++ '-' :: uuid.take 8 := by
        simp [uniquePath, hne, hi]
      refine ⟨?_, Or.inr ⟨rfl, hval⟩⟩
      intro heq
      have hlen := congrArg List.length (hval.symm.trans heq)
      simp only [List.length_append, List.length_cons] at hlen
      omega

/-- Witness for C7 amended: `b.png` is free in `c7vault` and comes back
unchanged; `a.png` exists and comes back as a different path. -/
theorem c7_uniquePath_amended_witness :
    c7vault ("b.png".toList) = false
    ∧ uniquePath c7vault c7uuid ("b.png".toList) = "b.png".toList
    ∧ c7vault ("a.png".toList) = true
    ∧ uniquePath c7vault c7uuid ("a.png".toList) ≠ "a.png".toList := by
  have h1 := c7_uniquePath_amended c7vault c7uuid ("b.png".toList)
  have h2 := c7_uniquePath_amended c7vault c7uuid ("a.png".toList)
  exact ⟨by decide, h1.1 (by decide), by decide, (h2.2 (by decide)).1⟩

/-! Claim C8. -/

/-- C8 counterexample: `doUpload` has no try/catch, so with a successful
remote PUT and a throwing document rewrite the item stays `done` with no
error message (the exception escapes) — it does not surface through the
failed-item path; and with a successful rewrite but a failing record-log
write the item likewise stays `done` with the failure unreported. -/
theorem c8_persistence_failure_counterexample :
    ((doUpload itemA
        (UploadResult.success ("https://cdn.example.com/a.png".toList))
        (RewriteOutcome.throws ("setValue failed".toList))
        (Except.ok ())).item.status = ItemStatus.done
     ∧ (doUpload itemA
        (UploadResult.success ("https://cdn.example.com/a.png".toList))
        (RewriteOutcome.throws ("setValue failed".toList))
        (Except.ok ())).item.status ≠ ItemStatus.failed
     ∧ (doUpload itemA
        (UploadResult.success ("https://cdn.example.com/a.png".toList))
        (RewriteOutcome.throws ("setValue failed".toList))
        (Except.ok ())).item.error = none)
    ∧ ((doUpload itemA
        (UploadResult.success ("https://cdn.example.com/a.png".toList))
        RewriteOutcome.ok
        (Except.error ("record write failed".toList))).item.status =
          ItemStatus.done
       ∧ (doUpload itemA
          (UploadResult.success ("https://cdn.example.com/a.png".toList))
          RewriteOutcome.ok
          (Except.error ("record write failed".toList))).recordAppended = false
       ∧ (doUpload itemA
          (UploadResult.success ("https://cdn.example.com/a.png".toList))
          RewriteOutcome.ok
          (Except.error ("record write failed".toList))).item.error = none) := by
  decide

/-- C8 amended: only downloads route persistence failures through the
per-item failed path — a failing file write or a throwing document
rewrite after a successful fetch marks the item `failed` with the error
message.  A failing record-log write is unreported in both directions
(the item stays `done` and no record is appended), and a throwing
document rewrite after a successful upload escapes `doUpload` with the
item left `done`. -/
theorem c8_persistence_failed_path_amended :
    (∀ (item : RemoteImageItem) (d : DownloadDeps) (s2 : Nat) (m : List Char),
       d.fetch = Except.ok s2 → 200 ≤ s2 → s2 < 300 →
       d.write = Except.error m →
       (doDownload item d).item.status = ItemStatus.failed
       ∧ (doDownload item d).item.error = some m)
    ∧ (∀ (item : RemoteImageItem) (d : DownloadDeps) (s2 : Nat) (m : List Char)
         (f : FileHandle),
       d.fetch = Except.ok s2 → 200 ≤ s2 → s2 < 300 →
       d.write = Except.ok () → d.saved = some f →
       d.rewrite = RewriteOutcome.throws m →
       (doDownload item d).item.status = ItemStatus.failed
       ∧ (doDownload item d).item.error = some m)
    ∧ (∀ (item : RemoteImageItem) (d : DownloadDeps) (s2 : Nat) (m : List Char)
         (f : FileHandle),
       d.fetch = Except.ok s2 → 200 ≤ s2 → s2 < 300 →
       d.write = Except.ok () → d.saved = some f →
       d.rewrite = RewriteOutcome.ok → d.record = Except.error m →
       (doDownload item d).item.status = ItemStatus.done
       ∧ (doDownload item d).item.error = none
       ∧ (doDownload item d).recordAppended = false)
    ∧ (∀ (item : ImageItem) (u m : List Char) (rec : Except (List Char) Unit),
       (doUpload item (UploadResult.success u) (RewriteOutcome.throws m)
          rec).item.status = ItemStatus.done
       ∧ (doUpload item (UploadResult.success u) (RewriteOutcome.throws m)
          rec).raised = some m
       ∧ (doUpload item (UploadResult.success u) (RewriteOutcome.throws m)
          rec).recordAppended = false)
    ∧ (∀ (item : ImageItem) (u m : List Char),
       (doUpload item (UploadResult.success u) RewriteOutcome.ok
          (Except.error m)).item.status = ItemStatus.done
       ∧ (doUpload item (UploadResult.success u) RewriteOutcome.ok
          (Except.error m)).recordAppended = false
       ∧ (doUpload item (UploadResult.success u) RewriteOutcome.ok
          (Except.error m)).raised = none) := by
  refine ⟨?_, ?_, ?_, ?_, ?_⟩
  · intro item d s2 m hf h2 h3 hw
    obtain ⟨fet, wr, sv, rwo, rec⟩ := d
    dsimp only at hf hw
    subst hf
    subst hw
    have hcond : ¬ (s2 < 200 ∨ 300 ≤ s2) := by omega
    constructor <;> simp [doDownload, hcond]
  · intro item d s2 m f hf h2 h3 hw hs hr
    obtain ⟨fet, wr, sv, rwo, rec⟩ := d
    dsimp only at hf hw hs hr
    subst hf
    subst hw
    subst hs
    subst hr
    have hcond : ¬ (s2 < 200 ∨ 300 ≤ s2) := by omega
    constructor <;> simp [doDownload, hcond]
  · intro item d s2 m f hf h2 h3 hw hs hr hrec
    obtain ⟨fet, wr, sv, rwo, rec⟩ := d
    dsimp only at hf hw hs hr hrec
    subst hf
    subst hw
    subst hs
    subst hr
    subst hrec
    have hcond : ¬ (s2 < 200 ∨ 300 ≤ s2) := by omega
    refine ⟨?_, ?_, ?_⟩ <;> simp [doDownload, hcond, exceptOk]
  · intro item u m rec
    exact ⟨rfl, rfl, rfl⟩
  · intro item u m
    exact ⟨rfl, rfl, rfl⟩

/-- Witness for C8 amended at concrete runs: a failing `createBinary`
marks the download item failed; a failing record write after a
successful download leaves it done with no record appended. -/
theorem c8_persistence_failed_path_amended_witness :
    (doDownload itemR
        { fetch := Except.ok 200
          write := Except.error ("disk full".toList)
          saved := none
          rewrite := RewriteOutcome.ok
          record := Except.ok () }).item.status = ItemStatus.failed
    ∧ (doDownload itemR
        { fetch := Except.ok 200
          write := Except.error ("disk full".toList)
          saved := none
          rewrite := RewriteOutcome.ok
          record := Except.ok () }).item.error = some ("disk full".toList)
    ∧ (doDownload itemR
        { fetch := Except.ok 200
          write := Except.ok ()
          saved := some fileC5
          rewrite := RewriteOutcome.ok
          record := Except.error ("record write failed".toList) }).item.status =
        ItemStatus.done
    ∧ (doDownload itemR
        { fetch := Except.ok 200
          write := Except.ok ()
          saved := some fileC5
          rewrite := RewriteOutcome.ok
          record := Except.error ("record write failed".toList) }).recordAppended =
        false := by
  have h1 := c8_persistence_failed_path_amended.1 itemR
    { fetch := Except.ok 200
      write := Except.error ("disk full".toList)
      saved := none
      rewrite := RewriteOutcome.ok
      record := Except.ok () } 200 ("disk full".toList) rfl (by decide) (by decide) rfl
  have h2 := c8_persistence_failed_path_amended.2.2.1 itemR
    { fetch := Except.ok 200
      write := Except.ok ()
      saved := some fileC5
      rewrite := RewriteOutcome.ok
      record := Except.error ("record write failed".toList) } 200
    ("record write failed".toList) fileC5 rfl (by decide) (by decide) rfl rfl rfl rfl
  exact ⟨h1.1, h1.2, h2.1, h2.2.2⟩

/-! Claim C9. -/

/-- C9: an upload attempt on which the blob client returns failure is
atomic: the whole run equals the one that marks the item `failed`
carrying the returned error message, with the document not rewritten, no
upload record appended, no removal scheduled, and no exception raised —
for every rewrite/record-write environment. -/
theorem c9_upload_failure_atomic (item : ImageItem) (e : List Char)
    (rwo : RewriteOutcome) (rec : Except (List Char) Unit) :
    doUpload item (UploadResult.failure e) rwo rec =
      { item := { item with status := ItemStatus.failed, error := some e }
        docRewritten := false
        recordAppended := false
        removalScheduled := false
        raised := none } := by
  rfl

/-! Claim C10. -/

/-- C10: with a cold cache and a records file that is missing or not
parsable JSON, hydration yields the empty list instead of an error, and
subsequent successful appends persist a file holding exactly the records
accumulated since hydration — the unreadable prior content is replaced. -/
theorem c10_records_hydration (st : RecState) (r r2 : ImageRecord)
    (hcold : st.cache = none)
    (hbad : st.file = RecordFile.missing ∨ st.file = RecordFile.unparsable) :
    (rmLoad st).fst = []
    ∧ (rmAdd r true st).file = RecordFile.parsed [r]
    ∧ (rmAdd r2 true (rmAdd r true st)).file = RecordFile.parsed [r, r2] := by
  rcases hbad with hb | hb <;>
    exact ⟨by simp [rmLoad, hcold, hb], by simp [rmAdd, rmLoad, hcold, hb],
           by simp [rmAdd, rmLoad, hcold, hb]⟩

/-- The upload record of the C10 witness. -/
def recU : UploadRecord :=
  { fileName := "photo.png".toList
    localPath := "photo.png".toList
    publicUrl := "https://cdn.example.com/photo.png".toList
    customUrl := []
    notePath := "note.md".toList
    noteFileName := "note.md".toList
    at_ := "t1".toList }

/-- The download record of the C10 witness. -/
def recD : DownloadRecord :=
  { fileName := "cat.jpg".toList
    localPath := "cat.jpg".toList
    remoteUrl := "https://example.com/cat.jpg".toList
    notePath := "note.md".toList
    noteFileName := "note.md".toList
    at_ := "t2".toList }

/-- Witness for C10 at a cold manager over an unparsable file. -/
theorem c10_records_hydration_witness :
    ({ cache := none, file := RecordFile.unparsable } : RecState).cache = none
    ∧ (rmLoad { cache := none, file := RecordFile.unparsable }).fst = []
    ∧ (rmAdd (ImageRecord.upload recU) true
        { cache := none, file := RecordFile.unparsable }).file =
        RecordFile.parsed [ImageRecord.upload recU]
    ∧ (rmAdd (ImageRecord.download recD) true
        (rmAdd (ImageRecord.upload recU) true
          { cache := none, file := RecordFile.unparsable })).file =
        RecordFile.parsed [ImageRecord.upload recU, ImageRecord.download recD] := by
  have h := c10_records_hydration
    { cache := none, file := RecordFile.unparsable }
    (ImageRecord.upload recU) (ImageRecord.download recD) rfl (Or.inr rfl)
  exact ⟨rfl, h.1, h.2.1, h.2.2⟩

end ImagesR2
